import Mathlib

/-!
Shallow embedding of the kindlepaper pipeline (src/main.rs).

Strings are modelled as `List Char`.  Rust byte indices coincide with
character indices for all the slicing done by the program, because every
delimiter it slices around (`<div class='h3'>`, `</div>`) is pure ASCII and
ASCII bytes never occur inside a multi-byte UTF-8 sequence.  Panics
(`unwrap`, `panic!`) are modelled as `Option.none`.
-/

namespace Kindlepaper

/-- One article row, as fetched from the reader database
(fields `title`, `byline`, `blurb`, `content` of `struct Article`). -/
structure Article where
  title : List Char
  byline : List Char
  blurb : List Char
  content : List Char
deriving DecidableEq

/-- The sub-heading marker `<div class='h3'>` compared against the first 16
characters of a content line (main.rs line 265). -/
def marker : List Char := "<div class='h3'>".data

/-- The closing tag `</div>` searched for in a marker line (main.rs line 270). -/
def closeDiv : List Char := "</div>".data

/-- `Rust str::find` for a substring: index of the first occurrence of
`needle`, `none` when there is no occurrence. -/
def findSub (needle : List Char) : List Char → Option Nat
  | [] => if needle = ([] : List Char).take needle.length then some 0 else none
  | c :: rest =>
    if needle = (c :: rest).take needle.length then some 0
    else (findSub needle rest).map (· + 1)

/-- `</section><section>`: the two writes closing the current section and
opening a new one (main.rs lines 266-267). -/
def secBreak : List Char := "</section><section>".data

/-- The body of the per-line loop of `write_articles` (main.rs lines 263-279).
A line whose first 16 characters equal `marker` is split at the first
`</div>`; `none` models the `unwrap` panic when `</div>` is absent and the
slice panic when the slice bounds would be invalid.  Any other line is
emitted verbatim. -/
def renderLine (line : List Char) : Option (List Char) :=
  if line.take 16 = marker then
    match findSub closeDiv line with
    | none => none
    | some e =>
      if 16 ≤ e ∧ e + 6 ≤ line.length then
        some (secBreak ++ "<h3>".data ++ (line.take e).drop 16 ++
          "</h3>".data ++ line.drop (e + 6))
      else none
  else some line

/-- Split a character list at every newline character, keeping all (possibly
empty) fields, as the first stage of Rust `str::lines`. -/
def splitNl : List Char → List (List Char)
  | [] => [[]]
  | c :: rest =>
    if c = '\n' then [] :: splitNl rest
    else
      match splitNl rest with
      | [] => [[c]]
      | l :: ls => (c :: l) :: ls

/-- Remove one trailing carriage return, as Rust `str::lines` does for a
line terminated by the sequence CR LF. -/
def stripCr (l : List Char) : List Char :=
  if l.getLast? = some '\r' then l.dropLast else l

/-- Rust `str::lines`: split at LF, strip a CR preceding each LF, and do not
produce a final empty line for a trailing terminator.  A lone CR not
followed by LF stays inside its line. -/
def rustLines (s : List Char) : List (List Char) :=
  let parts := splitNl s
  let body := (parts.dropLast).map stripCr
  match parts.getLast? with
  | none => []
  | some last => if last = [] then body else body ++ [last]

/-- The whole per-article line loop: every line is rendered and the results
are concatenated in order with nothing in between (main.rs lines 263-279). -/
def renderLines : List (List Char) → Option (List Char)
  | [] => some []
  | l :: ls =>
    match renderLine l, renderLines ls with
    | some r, some rest => some (r ++ rest)
    | _, _ => none

/-- Rendering of one article's `content` field between the `<section>` and
`</section>` writes of `write_articles`. -/
def renderBody (content : List Char) : Option (List Char) :=
  renderLines (rustLines content)

/-- `make_name` (main.rs lines 208-210): the anchor id for an article title at
a positional index, every space of the title replaced by an underscore,
followed by an underscore and the decimal index. -/
def make_name (s : List Char) (idx : Nat) : List Char :=
  (s.map fun c => if c = ' ' then '_' else c) ++ '_' :: (Nat.repr idx).data

/-- The anchor id the Navigation Builder (`write_toc`) puts in the fragment of
each `<li>` link (main.rs line 228). -/
def toc_anchor (a : Article) (idx : Nat) : List Char := make_name a.title idx

/-- The anchor id the Markup Transformer (`write_articles`) puts in the
`<a name=...>` of each article header (main.rs line 255). -/
def article_anchor (a : Article) (idx : Nat) : List Char := make_name a.title idx

/-- `TOC_FILE` constant (main.rs line 24). -/
def TOC_FILE : String := "toc.html"

/-- `CONTENT_FILE` constant (main.rs line 25). -/
def CONTENT_FILE : String := "content.html"

/-- One `<li>` navigation entry (main.rs line 228). -/
def tocEntry (a : Article) (idx : Nat) : List Char :=
  "<li><a href=\"".data ++ CONTENT_FILE.data ++ "#".data ++ toc_anchor a idx ++
    "\">".data ++ a.title ++ "</a></li>".data

/-- The navigation loop of `write_toc` (main.rs lines 226-229): one entry per
article, skipping articles whose title is empty, index following the
enumeration counter. -/
def tocEntriesAux : Nat → List Article → List (List Char)
  | _, [] => []
  | idx, a :: rest =>
    if a.title = [] then tocEntriesAux (idx + 1) rest
    else tocEntry a idx :: tocEntriesAux (idx + 1) rest

/-- Fixed prefix of the navigation document (main.rs lines 216-224). -/
def tocHeader : List Char :=
  ("<!DOCTYPE html>" ++ "<html>" ++ "<head>" ++
    "<meta http-equiv=\"content-type\" content=\"text/html; charset=UTF-8\">" ++
    "</head>" ++ "<body>" ++ "<nav epub:type=\"toc\">" ++ "<ol>").data

/-- `write_toc` (main.rs lines 212-237): the navigation document. -/
def write_toc (articles : List Article) : List Char :=
  tocHeader ++ (tocEntriesAux 0 articles).flatten ++
    ("</ol>" ++ "</nav>" ++ "</body>" ++ "</html>").data

/-- One article's fragment of the content document, i.e. one iteration of the
article loop of `write_articles` (main.rs lines 251-283). -/
def renderArticle (a : Article) (idx : Nat) : Option (List Char) :=
  match renderBody a.content with
  | none => none
  | some body =>
    some ("<article>".data ++ "<header><div>".data ++
      "<a name=\"".data ++ article_anchor a idx ++ "\"><h1>".data ++ a.title ++
      "</h1></a>".data ++
      "<h2>".data ++ a.blurb ++ "</h2>".data ++ "</div></header>".data ++
      "<address>".data ++ a.byline ++ "</address>".data ++
      "<section>".data ++ body ++ "</section>".data ++ "</article>".data)

/-- The article loop of `write_articles`, producing the per-article fragments
in input order; `none` models any panic inside the loop. -/
def renderArticlesAux : Nat → List Article → Option (List (List Char))
  | _, [] => some []
  | idx, a :: rest =>
    match renderArticle a idx, renderArticlesAux (idx + 1) rest with
    | some f, some fs => some (f :: fs)
    | _, _ => none

/-- Fixed prefix of the content document around its title
(main.rs lines 243-249). -/
def contentHeader (title : List Char) : List Char :=
  ("<!DOCTYPE html>" ++ "<html>" ++ "<head>" ++ "<title>").data ++ title ++
    ("</title>" ++
     "<meta http-equiv=\"content-type\" content=\"text/html; charset=UTF-8\">" ++
     "</head>" ++ "<body>").data

/-- `write_articles` (main.rs lines 239-289): the content document. -/
def write_articles (articles : List Article) (title : List Char) :
    Option (List Char) :=
  match renderArticlesAux 0 articles with
  | none => none
  | some frags =>
    some (contentHeader title ++ frags.flatten ++ ("</body>" ++ "</html>").data)

/-! ### The packaging manifest (`write_opf`, main.rs lines 330-362)

The Rust format string is cut at its interpolation holes; the pieces are
transcribed verbatim, hole order: title, title, title, date, `TOC_FILE`,
`CONTENT_FILE`. -/

/-- Manifest text before the `unique-identifier` attribute value. -/
def opfP0 : List Char :=
  "\n<?xml version=\"1.0\" encoding=\"utf-8\"?>\n<package xmlns=\"http://www.idpf.org/2007/opf\" version=\"2.0\" unique-identifier=\"".data

/-- Manifest text between the identifier and the `dc:title` value. -/
def opfP1 : List Char :=
  "\">\n  <metadata xmlns:dc=\"http://purl.org/dc/elements/1.1/\" xmlns:opf=\"http://www.idpf.org/2007/opf\">\n    <dc:title>".data

/-- Manifest text between the `dc:title` and `dc:publisher` values. -/
def opfP2 : List Char :=
  "</dc:title>\n    <dc:language>da-dk</dc:language>\n    <dc:creator>Andreas H. From</dc:creator>\n    <dc:publisher>".data

/-- Manifest text between the `dc:publisher` and `dc:date` values. -/
def opfP3 : List Char :=
  "</dc:publisher>\n    <dc:subject>Newspaper</dc:subject>\n    <dc:date>".data

/-- Manifest text between the date and the `toc` item href. -/
def opfP4a : List Char :=
  "</dc:date>\n  </metadata>\n  <manifest>\n    <item id=\"toc\" properties=\"nav\" href=\"".data

/-- Manifest text between the `toc` item href and the `content` item href. -/
def opfP4b : List Char :=
  "\" media-type=\"text/html\"/>\n    <item id=\"content\" media-type=\"text/html\" href=\"".data

/-- Manifest text after the `content` item href: manifest close, spine, guide,
package close. -/
def opfP4c : List Char :=
  "\"></item>\n  </manifest>\n  <spine toc=\"toc\">\n    <itemref idref=\"toc\"/>\n    <itemref idref=\"content\"/>\n  </spine>\n  <guide>\n    <reference type=\"toc\" title=\"Table of Contents\" href=\"toc.html\"></reference>\n  </guide>\n</package>".data

/-- Everything `write_opf` emits after the `dc:date` value. -/
def opfTail : List Char :=
  opfP4a ++ TOC_FILE.data ++ opfP4b ++ CONTENT_FILE.data ++ opfP4c

/-- `write_opf` (main.rs lines 330-362); `date` stands for the value of
`now().strftime("%F")` computed by the caller. -/
def write_opf (title date : List Char) : List Char :=
  opfP0 ++ title ++ opfP1 ++ title ++ opfP2 ++ title ++ opfP3 ++ date ++ opfTail

/-- Number of positions of the haystack at which `needle` occurs. -/
def countSub (needle : List Char) : List Char → Nat
  | [] => 0
  | c :: rest =>
    (if needle = (c :: rest).take needle.length then 1 else 0) +
      countSub needle rest

/-! ### The batch driver (`convert_papers`, `fetch_articles`) -/

/-- The two read-only queries of one acquired database, abstracted as their
result sets: the rows of the "latest identifier" query (`refid_stmt`) and,
for each bound pattern, the article rows of the selection query
(`select_stmt`). -/
structure Db where
  refidRows : List (List Char)
  selectRows : List Char → List Article

/-- One configured source together with its acquired database file;
`db = none` models a missing file (`is_file` false, main.rs line 111). -/
structure Paper where
  name : List Char
  db : Option Db

/-- The document files produced for one source. -/
structure Output where
  name : List Char
  toc : List Char
  content : List Char
  opf : List Char
deriving DecidableEq

/-- `fetch_refid_pattern` (main.rs lines 291-306): take the first row of the
"latest identifier" query — `none` models the `panic!("no articles")` on an
empty result — then the first 6 characters of the identifier, suffixed
with `%`. -/
def fetch_refid_pattern (db : Db) : Option (List Char) :=
  match db.refidRows.head? with
  | none => none
  | some refid => some (refid.take 6 ++ ['%'])

/-- `fetch_articles` (main.rs lines 308-328): derive the edition pattern and
run the selection query bound to it. -/
def fetch_articles (db : Db) : Option (List Article) :=
  match fetch_refid_pattern db with
  | none => none
  | some pat => some (db.selectRows pat)

/-- `date_paper` (main.rs lines 104-106): the document title
`<name> - <date>`. -/
def date_paper (name date : List Char) : List Char :=
  name ++ " - ".data ++ date

/-- One iteration of the `convert_papers` loop for a source whose database
file is present (main.rs lines 112-120): fetch the articles, then build the
three documents.  `none` models a panic anywhere in the iteration. -/
def convert_paper (date : List Char) (p : Paper) (db : Db) : Option Output :=
  match fetch_articles db with
  | none => none
  | some articles =>
    let name := date_paper p.name date
    match write_articles articles name with
    | none => none
    | some contentDoc =>
      some ⟨name, write_toc articles, contentDoc, write_opf name date⟩

/-- `convert_papers` (main.rs lines 108-125).  Sources with a missing
database file are skipped; a panic while processing one source aborts the
whole run (the boolean is false and no further source is processed, matching
the `unwrap` on `fetch_articles` and the `try!` propagation out of the
loop). -/
def convert_papers (date : List Char) : List Paper → List Output × Bool
  | [] => ([], true)
  | p :: ps =>
    match p.db with
    | none => convert_papers date ps
    | some db =>
      match convert_paper date p db with
      | none => ([], false)
      | some out =>
        let r := convert_papers date ps
        (out :: r.1, r.2)

/-! ## Lemmas about `findSub` and the sub-heading marker -/

/-- `findSub` returns the index of an occurrence, and of the first one. -/
theorem findSub_spec (needle : List Char) :
    ∀ (l : List Char) (e : Nat), findSub needle l = some e →
      needle = (l.drop e).take needle.length ∧
      ∀ j, j < e → needle ≠ (l.drop j).take needle.length := by
  intro l
  induction l with
  | nil =>
    intro e h
    by_cases hc : needle = ([] : List Char).take needle.length
    · simp only [findSub, if_pos hc, Option.some.injEq] at h
      subst h
      exact ⟨hc, fun j hj => absurd hj (Nat.not_lt_zero j)⟩
    · rw [findSub, if_neg hc] at h
      exact nomatch h
  | cons c rest ih =>
    intro e h
    by_cases hc : needle = (c :: rest).take needle.length
    · simp only [findSub, if_pos hc, Option.some.injEq] at h
      subst h
      exact ⟨hc, fun j hj => absurd hj (Nat.not_lt_zero j)⟩
    · simp only [findSub, if_neg hc, Option.map_eq_some'] at h
      obtain ⟨e', he', rfl⟩ := h
      obtain ⟨hocc, hmin⟩ := ih e' he'
      refine ⟨by simpa using hocc, ?_⟩
      intro j hj
      match j with
      | 0 => simpa using hc
      | k + 1 =>
        have hk : k < e' := by omega
        simpa using hmin k hk

/-- No occurrence of `</div>` can start inside the 16-character marker,
whatever follows it. -/
theorem closeDiv_not_early (t : List Char) :
    ∀ j, j < 16 → closeDiv ≠ ((marker ++ t).drop j).take closeDiv.length := by
  have hm : marker = '<' :: 'd' :: 'i' :: 'v' :: ' ' :: 'c' :: 'l' :: 'a' ::
      's' :: 's' :: '=' :: Char.ofNat 39 :: 'h' :: '3' :: Char.ofNat 39 ::
      '>' :: [] := by decide
  have hc : closeDiv = '<' :: '/' :: 'd' :: 'i' :: 'v' :: '>' :: [] := by decide
  intro j hj
  rw [hm, hc]
  interval_cases j <;> simp +decide

/-- On a line that starts with the marker, the first `</div>` starts at
index at least 16 and ends inside the line. -/
theorem findSub_marker_bounds (line : List Char) (e : Nat)
    (h : line.take 16 = marker) (hf : findSub closeDiv line = some e) :
    16 ≤ e ∧ e + 6 ≤ line.length := by
  obtain ⟨hocc, -⟩ := findSub_spec closeDiv line e hf
  have hline : line = marker ++ line.drop 16 := by
    conv_lhs => rw [← List.take_append_drop 16 line, h]
  constructor
  · by_contra hlt
    push_neg at hlt
    exact closeDiv_not_early (line.drop 16) e hlt (by rw [← hline]; exact hocc)
  · have h2 := congrArg List.length hocc
    rw [List.length_take, List.length_drop] at h2
    have h6 : closeDiv.length = 6 := rfl
    rw [h6] at h2
    omega

/-- On a marker line containing `</div>` at first index `e`, `renderLine`
produces the section break, the heading and the remainder. -/
theorem renderLine_marker (line : List Char) (e : Nat)
    (h : line.take 16 = marker) (hf : findSub closeDiv line = some e) :
    renderLine line = some (secBreak ++ "<h3>".data ++ (line.take e).drop 16 ++
      "</h3>".data ++ line.drop (e + 6)) := by
  obtain ⟨h1, h2⟩ := findSub_marker_bounds line e h hf
  rw [renderLine, if_pos h, hf]
  simp [h1, h2]

/-! ## Claims C1, C7, C9 -/

/-- Claim C1: a content line whose first 16 characters equal the marker
`<div class='h3'>` makes the Markup Transformer close the current section and
open a new one, emit the text strictly between the marker and the first
`</div>` as an `<h3>` heading, and emit the remainder of the line after
`</div>` as body content of the new section. -/
theorem claim_C1 (line : List Char) (e : Nat)
    (h : line.take 16 = marker) (hf : findSub closeDiv line = some e) :
    renderLine line =
      some ("</section><section>".data ++ "<h3>".data ++ (line.take e).drop 16 ++
        "</h3>".data ++ line.drop (e + 6)) :=
  renderLine_marker line e h hf

/-- Claim C1, witnessed on the line `<div class='h3'>Foo</div>Bar`, which
yields a new section containing `<h3>Foo</h3>Bar`. -/
theorem claim_C1_witness :
    renderLine "<div class='h3'>Foo</div>Bar".data =
      some "</section><section><h3>Foo</h3>Bar".data := by
  rw [claim_C1 "<div class='h3'>Foo</div>Bar".data 19 (by decide) (by decide)]
  decide

/-- A line not starting with the marker passes through unchanged. -/
theorem renderLine_of_ne (line : List Char) (h : line.take 16 ≠ marker) :
    renderLine line = some line := by
  rw [renderLine, if_neg h]

/-- Claim C7: a content line whose first 16 characters do not equal the
sub-heading marker is emitted verbatim, byte-for-byte, with no escaping and
no transformation. -/
theorem claim_C7 (line : List Char) (h : line.take 16 ≠ marker) :
    renderLine line = some line :=
  renderLine_of_ne line h

/-- Claim C7, witnessed on a plain line. -/
theorem claim_C7_witness :
    renderLine "<p>Hello &amp; \"welcome\"</p>".data =
      some "<p>Hello &amp; \"welcome\"</p>".data :=
  claim_C7 _ (by decide)

/-- Claim C9: on a marker line that contains `</div>`, the first occurrence
of `</div>` begins at index at least 16 (it cannot overlap the marker), the
heading slice and the remainder slice are in bounds, and rendering the line
never panics from slicing: it produces a value. -/
theorem claim_C9 (line : List Char) (e : Nat)
    (h : line.take 16 = marker) (hf : findSub closeDiv line = some e) :
    16 ≤ e ∧ e + 6 ≤ line.length ∧ ∃ out, renderLine line = some out := by
  obtain ⟨h1, h2⟩ := findSub_marker_bounds line e h hf
  exact ⟨h1, h2, _, renderLine_marker line e h hf⟩

/-- Claim C9, witnessed on the line `<div class='h3'>Foo</div>Bar`. -/
theorem claim_C9_witness :
    16 ≤ 19 ∧ 19 + 6 ≤ ("<div class='h3'>Foo</div>Bar".data).length ∧
      ∃ out, renderLine "<div class='h3'>Foo</div>Bar".data = some out :=
  claim_C9 "<div class='h3'>Foo</div>Bar".data 19 (by decide) (by decide)

/-! ## Injectivity of the decimal index suffix of `make_name` -/

/-- Decimal digits of `n`, most significant first, by well-founded recursion:
the fuel-free counterpart of `Nat.toDigitsCore`. -/
def decRepr (n : Nat) : List Char :=
  if n < 10 then [Nat.digitChar n]
  else decRepr (n / 10) ++ [Nat.digitChar (n % 10)]
decreasing_by exact Nat.div_lt_self (by omega) (by omega)

/-- With enough fuel, `Nat.toDigitsCore` computes `decRepr`. -/
theorem toDigitsCore_eq (fuel : Nat) :
    ∀ (n : Nat) (ds : List Char), n < fuel →
      Nat.toDigitsCore 10 fuel n ds = decRepr n ++ ds := by
  induction fuel with
  | zero => omega
  | succ f ih =>
    intro n ds hfuel
    rw [Nat.toDigitsCore]
    by_cases h0 : n / 10 = 0
    · have hn : n < 10 := by omega
      rw [if_pos h0, decRepr, if_pos hn, Nat.mod_eq_of_lt hn]
      rfl
    · have hn : ¬ n < 10 := by omega
      rw [if_neg h0, ih (n / 10) _ (by omega)]
      conv_rhs => rw [decRepr, if_neg hn]
      simp

/-- `Nat.toDigits` in base ten computes `decRepr`. -/
theorem toDigits_eq_decRepr (n : Nat) : Nat.toDigits 10 n = decRepr n := by
  rw [Nat.toDigits]
  simpa using toDigitsCore_eq (n + 1) n [] (by omega)

/-- Decimal evaluation of a digit string, with an accumulator. -/
def decValAux : List Char → Nat → Nat
  | [], a => a
  | c :: l, a => decValAux l (a * 10 + (c.toNat - 48))

theorem decValAux_append (a : Nat) (l l' : List Char) :
    decValAux (l ++ l') a = decValAux l' (decValAux l a) := by
  induction l generalizing a with
  | nil => rfl
  | cons c cs ih => rw [List.cons_append, decValAux, decValAux, ih]

/-- The code of a decimal digit character recovers the digit. -/
theorem digitChar_val (d : Nat) (h : d < 10) : (Nat.digitChar d).toNat - 48 = d := by
  interval_cases d <;> decide

/-- `decValAux` evaluates `decRepr` back to the number. -/
theorem decVal_decRepr (n : Nat) : decValAux (decRepr n) 0 = n := by
  induction n using Nat.strong_induction_on with
  | _ n ih =>
    by_cases h : n < 10
    · rw [decRepr, if_pos h, decValAux, decValAux]
      rw [digitChar_val n h]
      omega
    · rw [decRepr, if_neg h, decValAux_append,
        ih (n / 10) (Nat.div_lt_self (by omega) (by omega)),
        decValAux, decValAux, digitChar_val (n % 10) (Nat.mod_lt n (by omega))]
      omega

/-- The decimal representation of a natural number determines it. -/
theorem natRepr_inj (i j : Nat) (h : (Nat.repr i).data = (Nat.repr j).data) :
    i = j := by
  have hi : Nat.toDigits 10 i = Nat.toDigits 10 j := h
  rw [toDigits_eq_decRepr, toDigits_eq_decRepr] at hi
  have h2 : decValAux (decRepr i) 0 = decValAux (decRepr j) 0 := by rw [hi]
  rwa [decVal_decRepr, decVal_decRepr] at h2

/-- For a fixed title, `make_name` is injective in the index. -/
theorem make_name_inj (s : List Char) (i j : Nat)
    (h : make_name s i = make_name s j) : i = j := by
  rw [make_name, make_name] at h
  have h2 := List.append_cancel_left h
  injection h2 with _ h3
  exact natRepr_inj i j h3

/-- Claim C2: the anchor id written by the Navigation Builder for the article
at index `i` equals the anchor id emitted by the Markup Transformer for the
same article and index — both are the title with each space replaced by an
underscore, followed by an underscore and the decimal index — and two
articles with the same title at different indices get distinct anchors. -/
theorem claim_C2 (a : Article) (i j : Nat) :
    toc_anchor a i = article_anchor a i ∧
      toc_anchor a i =
        (a.title.map fun c => if c = ' ' then '_' else c) ++
          '_' :: (Nat.repr i).data ∧
      (i ≠ j → toc_anchor a i ≠ article_anchor a j) :=
  ⟨rfl, rfl, fun hij h => hij (make_name_inj a.title i j h)⟩

/-- An article used to instantiate universally quantified claims. -/
def exArticle : Article := ⟨"Breaking News".data, [], [], []⟩

/-- Claim C2, witnessed: for two articles titled `Breaking News` at indices 0
and 1 the two documents agree on each anchor and the anchors differ. -/
theorem claim_C2_witness :
    toc_anchor exArticle 0 = article_anchor exArticle 0 ∧
      toc_anchor exArticle 0 ≠ article_anchor exArticle 1 :=
  ⟨(claim_C2 exArticle 0 1).1, (claim_C2 exArticle 0 1).2.2 (by decide)⟩

/-! ## Claim C3: navigation entries versus rendered articles -/

/-- The navigation loop emits exactly the enumerated articles with non-empty
title, in order, one entry each. -/
theorem tocEntriesAux_eq (l : List Article) :
    ∀ n, tocEntriesAux n l =
      ((l.enumFrom n).filter fun p => p.2.title ≠ []).map
        fun p => tocEntry p.2 p.1 := by
  induction l with
  | nil => intro n; rfl
  | cons a rest ih =>
    intro n
    rw [tocEntriesAux, List.enumFrom]
    by_cases h : a.title = []
    · rw [if_pos h]
      simp [List.filter_cons, h, ih]
    · rw [if_neg h]
      simp [List.filter_cons, h, ih]

/-- A fragment produced by `renderArticle` is one `<article>` element. -/
theorem renderArticle_shape (a : Article) (idx : Nat) (f : List Char)
    (h : renderArticle a idx = some f) :
    ∃ mid, f = "<article>".data ++ mid ++ "</article>".data := by
  rw [renderArticle] at h
  cases hb : renderBody a.content with
  | none => rw [hb] at h; exact nomatch h
  | some body =>
    rw [hb] at h
    injection h with h
    refine ⟨"<header><div>".data ++ "<a name=\"".data ++ article_anchor a idx ++
      "\"><h1>".data ++ a.title ++ "</h1></a>".data ++ "<h2>".data ++ a.blurb ++
      "</h2>".data ++ "</div></header>".data ++ "<address>".data ++ a.byline ++
      "</address>".data ++ "<section>".data ++ body ++ "</section>".data, ?_⟩
    rw [← h]
    simp [List.append_assoc]

/-- The article loop yields one fragment per article, each an `<article>`
element. -/
theorem renderArticlesAux_spec :
    ∀ (l : List Article) (n : Nat) (frags : List (List Char)),
      renderArticlesAux n l = some frags →
        frags.length = l.length ∧
        ∀ f ∈ frags, ∃ mid, f = "<article>".data ++ mid ++ "</article>".data := by
  intro l
  induction l with
  | nil =>
    intro n frags h
    rw [renderArticlesAux] at h
    injection h with h
    subst h
    simp
  | cons a rest ih =>
    intro n frags h
    rw [renderArticlesAux] at h
    cases hra : renderArticle a n with
    | none => rw [hra] at h; exact nomatch h
    | some f =>
      rw [hra] at h
      cases hrest : renderArticlesAux (n + 1) rest with
      | none => rw [hrest] at h; exact nomatch h
      | some fs =>
        rw [hrest] at h
        injection h with h
        subst h
        obtain ⟨hlen, hmem⟩ := ih (n + 1) fs hrest
        refine ⟨by simp [hlen], ?_⟩
        intro g hg
        rcases List.mem_cons.mp hg with hg | hg
        · exact hg ▸ renderArticle_shape a n f hra
        · exact hmem g hg

/-- Claim C3: the navigation document holds exactly one list entry per
article with non-empty title, in input order, and none for articles whose
title is empty; every article, empty-titled or not, still becomes an
`<article>` element of the content document. -/
theorem claim_C3 (articles : List Article) :
    tocEntriesAux 0 articles =
      ((articles.enum.filter fun p => p.2.title ≠ []).map
        fun p => tocEntry p.2 p.1) ∧
    ∀ frags, renderArticlesAux 0 articles = some frags →
      frags.length = articles.length ∧
      ∀ f ∈ frags, ∃ mid, f = "<article>".data ++ mid ++ "</article>".data :=
  ⟨tocEntriesAux_eq articles 0, fun frags h => renderArticlesAux_spec articles 0 frags h⟩

/-- The article list used to witness claim C3: one titled article and one
with an empty title. -/
def exArticles : List Article :=
  [⟨"A B".data, "by".data, "bl".data, "x".data⟩, ⟨[], [], [], "y".data⟩]

/-- Claim C3, witnessed: of two articles, one with empty title, the
navigation holds one entry while the content document holds two article
fragments. -/
theorem claim_C3_witness :
    (tocEntriesAux 0 exArticles).length = 1 ∧
    ∃ frags, renderArticlesAux 0 exArticles = some frags ∧ frags.length = 2 := by
  have h := claim_C3 exArticles
  refine ⟨by rw [h.1]; rfl, ?_⟩
  obtain ⟨frags, hf⟩ : ∃ frags, renderArticlesAux 0 exArticles = some frags :=
    ⟨_, rfl⟩
  exact ⟨frags, hf, ((h.2 frags hf).1).trans rfl⟩

/-! ## Claims C4, C5, C6: edition selection and the batch driver -/

/-- Claim C4: for a latest identifier of at least 6 characters, the derived
edition filter is exactly its first 6 characters followed by `%`. -/
theorem claim_C4 (db : Db) (refid : List Char)
    (h : db.refidRows.head? = some refid) (hlen : 6 ≤ refid.length) :
    (refid.take 6).length = 6 ∧
      fetch_refid_pattern db = some (refid.take 6 ++ ['%']) := by
  refine ⟨?_, by rw [fetch_refid_pattern, h]⟩
  rw [List.length_take]
  omega

/-- A source database whose latest identifier is `ABC123XYZ`. -/
def exDb4 : Db := ⟨["ABC123XYZ".data], fun _ => []⟩

/-- Claim C4, witnessed: identifier `ABC123XYZ` yields filter `ABC123%`. -/
theorem claim_C4_witness :
    fetch_refid_pattern exDb4 = some "ABC123%".data := by
  rw [(claim_C4 exDb4 "ABC123XYZ".data rfl (by decide)).2]
  decide

/-- A source database whose latest identifier, `AB`, is shorter than 6
characters. -/
def exDb5 : Db := ⟨["AB".data], fun _ => []⟩

/-- Claim C5 is false on the code: for the 2-character identifier `AB` the
Edition Selector does not fail at all — there is no length check — and the
derived filter is `AB%`. -/
theorem claim_C5_counterexample :
    ("AB".data).length < 6 ∧ fetch_refid_pattern exDb5 ≠ none ∧
      fetch_refid_pattern exDb5 = some "AB%".data :=
  ⟨by decide, by decide, by decide⟩

/-- Claim C5 as amended: for a latest identifier shorter than 6 characters
the Edition Selector does not fail; the whole identifier becomes the prefix
and the derived filter is the identifier followed by `%`. -/
theorem claim_C5 (db : Db) (refid : List Char)
    (h : db.refidRows.head? = some refid) (hlen : refid.length < 6) :
    fetch_refid_pattern db = some (refid ++ ['%']) := by
  simp only [fetch_refid_pattern, h]
  rw [List.take_of_length_le (by omega)]

/-- Claim C5 as amended, witnessed on the identifier `AB`. -/
theorem claim_C5_witness : fetch_refid_pattern exDb5 = some "AB%".data := by
  rw [claim_C5 exDb5 "AB".data rfl (by decide)]
  decide

/-- A source whose latest-identifier query returns zero rows. -/
def badPaper : Paper := ⟨"Bad".data, some ⟨[], fun _ => []⟩⟩

/-- An article that renders without failure. -/
def goodArticle : Article := ⟨"T".data, "b".data, "s".data, "body".data⟩

/-- A source whose pipeline succeeds and produces output documents. -/
def goodPaper : Paper :=
  ⟨"Good".data, some ⟨["ABCDEF99".data], fun _ => [goodArticle]⟩⟩

/-- Claim C6 is false on the code in its continuation part: processing the
empty-edition source `badPaper` panics and aborts the whole batch, so the
following healthy source — which alone yields one output set — produces
nothing when it comes after the failing one. -/
theorem claim_C6_counterexample :
    (convert_papers "2026-10-12".data [goodPaper]).1.length = 1 ∧
      convert_papers "2026-10-12".data [badPaper, goodPaper] = ([], false) :=
  ⟨rfl, rfl⟩

/-- Claim C6 as amended: zero rows from the latest-identifier query make
`fetch_articles` fail (the `no articles` panic) and no document files are
produced for that source; but the failure is not contained: it aborts the
whole batch, so no remaining source is processed either. -/
theorem claim_C6 (date : List Char) (p : Paper) (db : Db) (ps : List Paper)
    (hdb : p.db = some db) (hrows : db.refidRows = []) :
    fetch_articles db = none ∧ convert_papers date (p :: ps) = ([], false) := by
  have hfa : fetch_articles db = none := by
    rw [fetch_articles, fetch_refid_pattern, hrows]
    rfl
  refine ⟨hfa, ?_⟩
  rw [convert_papers, hdb]
  simp [convert_paper, hfa]

/-- Claim C6 as amended, witnessed on `badPaper` followed by `goodPaper`. -/
theorem claim_C6_witness :
    fetch_articles ⟨[], fun _ => []⟩ = none ∧
      convert_papers "2026-10-12".data [badPaper, goodPaper] = ([], false) :=
  claim_C6 "2026-10-12".data badPaper ⟨[], fun _ => []⟩ [goodPaper] rfl rfl

/-! ## Claim C10: marker-free content is flattened without separators -/

/-- When no line matches the marker, the loop output is the plain
concatenation of the lines. -/
theorem renderLines_no_marker :
    ∀ (ls : List (List Char)), (∀ l ∈ ls, l.take 16 ≠ marker) →
      renderLines ls = some ls.flatten := by
  intro ls
  induction ls with
  | nil => intro _; rfl
  | cons l rest ih =>
    intro h
    rw [renderLines, renderLine_of_ne l (h l (List.mem_cons_self l rest)),
      ih fun m hm => h m (List.mem_cons_of_mem l hm)]
    simp

theorem splitNl_ne_nil (s : List Char) : splitNl s ≠ [] := by
  induction s with
  | nil => simp [splitNl]
  | cons c rest ih =>
    rw [splitNl]
    by_cases h : c = '\n'
    · simp [h]
    · rw [if_neg h]
      cases hs : splitNl rest with
      | nil => simp
      | cons l ls => simp

/-- Concatenating the newline-split fields recovers the string minus its
newline characters. -/
theorem flatten_splitNl (s : List Char) :
    (splitNl s).flatten = s.filter fun c => c != '\n' := by
  induction s with
  | nil => rfl
  | cons c rest ih =>
    rw [splitNl]
    by_cases h : c = '\n'
    · rw [if_pos h]
      simp [List.filter_cons, h, ih]
    · rw [if_neg h]
      cases hs : splitNl rest with
      | nil => exact absurd hs (splitNl_ne_nil rest)
      | cons l ls =>
        rw [hs] at ih
        simp [List.filter_cons, h, ← ih]

/-- Fields of the newline split contain only characters of the string. -/
theorem mem_splitNl_subset (s : List Char) :
    ∀ l ∈ splitNl s, ∀ c ∈ l, c ∈ s := by
  induction s with
  | nil =>
    intro l hl c hc
    simp [splitNl] at hl
    subst hl
    exact absurd hc (List.not_mem_nil c)
  | cons a rest ih =>
    intro l hl c hc
    rw [splitNl] at hl
    by_cases h : a = '\n'
    · rw [if_pos h] at hl
      rcases List.mem_cons.mp hl with rfl | hl
      · exact absurd hc (List.not_mem_nil c)
      · exact List.mem_cons_of_mem a (ih l hl c hc)
    · rw [if_neg h] at hl
      cases hs : splitNl rest with
      | nil => exact absurd hs (splitNl_ne_nil rest)
      | cons m ms =>
        rw [hs] at hl
        rcases List.mem_cons.mp hl with rfl | hl
        · rcases List.mem_cons.mp hc with rfl | hc
          · exact List.mem_cons_self c rest
          · exact List.mem_cons_of_mem a (ih m (hs ▸ List.mem_cons_self m ms) c hc)
        · exact List.mem_cons_of_mem a (ih l (hs ▸ List.mem_cons_of_mem m hl) c hc)

theorem stripCr_of_no_cr (l : List Char) (h : '\r' ∉ l) : stripCr l = l := by
  rw [stripCr, if_neg]
  intro hl
  exact h (List.mem_of_mem_getLast? (by rw [hl]; rfl))

/-- For carriage-return-free content, the concatenated lines are exactly the
content minus its newline characters. -/
theorem rustLines_flatten (s : List Char) (h : '\r' ∉ s) :
    (rustLines s).flatten = s.filter fun c => c != '\n' := by
  have hne := splitNl_ne_nil s
  have hmap : ((splitNl s).dropLast).map stripCr = (splitNl s).dropLast := by
    rw [List.map_congr_left fun l hl =>
      stripCr_of_no_cr l fun hc =>
        h (mem_splitNl_subset s l ((List.dropLast_sublist (splitNl s)).subset hl)
          '\r' hc)]
    exact List.map_id _
  have hcat : (splitNl s).dropLast ++ [(splitNl s).getLast hne] = splitNl s :=
    List.dropLast_concat_getLast hne
  rw [rustLines]
  simp only [List.getLast?_eq_getLast _ hne]
  by_cases hl : (splitNl s).getLast hne = []
  · rw [if_pos hl, hmap, ← flatten_splitNl, ← hcat, List.flatten_append, hl]
    simp
  · rw [if_neg hl, hmap, ← flatten_splitNl]
    exact congrArg List.flatten hcat

/-- Claim C10: for content containing no marker line, the rendered section
body is the plain concatenation of the content's lines, their terminators
removed and with nothing inserted between adjacent lines; in particular for
carriage-return-free content it is the content minus its newline
characters. -/
theorem claim_C10 (content : List Char)
    (h : ∀ l ∈ rustLines content, l.take 16 ≠ marker) :
    renderBody content = some ((rustLines content).flatten) ∧
    ('\r' ∉ content →
      renderBody content = some (content.filter fun c => c != '\n')) := by
  have h1 : renderBody content = some ((rustLines content).flatten) :=
    renderLines_no_marker (rustLines content) h
  exact ⟨h1, fun hcr => by rw [h1, rustLines_flatten content hcr]⟩

/-- Claim C10, witnessed: the three lines `ab`, `cd`, `ef` are joined
directly into `abcdef`. -/
theorem claim_C10_witness :
    renderBody "ab\ncd\nef".data = some "abcdef".data := by
  have h := claim_C10 "ab\ncd\nef".data (by decide)
  rw [h.2 (by decide)]
  decide

/-! ## Claim C8: structure of the packaging manifest -/

set_option maxRecDepth 40000 in
/-- Claim C8: the emitted package puts the document title into the
`unique-identifier` attribute (and the `dc:title` and `dc:publisher`
fields), the supplied date — the code's `now().strftime("%F")`, ISO 8601
`YYYY-MM-DD` — into the `dc:date` field, and its constant remainder holds a
manifest of exactly two `<item>` entries with ids `toc` and `content`, a
spine whose `toc` item reference precedes its `content` item reference, and
exactly one guide reference of type `toc` back to `toc.html`. -/
theorem claim_C8 (title date : List Char) :
    write_opf title date =
      opfP0 ++ title ++ opfP1 ++ title ++ opfP2 ++ title ++ opfP3 ++ date ++
        opfTail ∧
    opfP0.drop (opfP0.length - 19) = "unique-identifier=\"".data ∧
    opfP1.take 2 = "\">".data ∧
    opfP3.drop (opfP3.length - 9) = "<dc:date>".data ∧
    opfTail.take 10 = "</dc:date>".data ∧
    countSub "<item ".data opfTail = 2 ∧
    countSub "<item id=\"toc\" properties=\"nav\" href=\"toc.html\" media-type=\"text/html\"/>".data opfTail = 1 ∧
    countSub "<item id=\"content\" media-type=\"text/html\" href=\"content.html\"></item>".data opfTail = 1 ∧
    countSub "<itemref".data opfTail = 2 ∧
    findSub "<itemref idref=\"toc\"/>".data opfTail = some 227 ∧
    findSub "<itemref idref=\"content\"/>".data opfTail = some 254 ∧
    (227 : Nat) < 254 ∧
    countSub "<reference".data opfTail = 1 ∧
    countSub "<reference type=\"toc\" title=\"Table of Contents\" href=\"toc.html\">".data opfTail = 1 :=
  ⟨rfl, by decide, by decide, by decide, by decide, by decide, by decide,
    by decide, by decide, by decide, by decide, by decide, by decide, by decide⟩

end Kindlepaper
